import Mathlib

/-!
# ChipIQ website script (`assets/js/main.js`)

A shallow embedding of the page script: class lists, the scroll handlers,
the active-section highlighter, the section locator and the resize
position preserver, the debouncer, the contact form handler, the reveal
animator and `init`, followed by the properties proved about them.

Conventions of the embedding.
* Pixel quantities (`scrollY`, `offsetTop`, `offsetHeight`) are `Int`.
* A DOM element is a bare handle (`Elem`); the live layout is read
  through the functions of an `Env`, as the script reads it from the DOM.
* A `classList` is the ordered token set of the DOM, a `List String`.
* Timers run on a virtual clock counted in the unit of `setTimeout`.
-/

namespace ChipIQ

/-! ## Class lists (`DOMTokenList`) -/

/-- A class list is the ordered set of class tokens of an element. -/
abbrev ClassList := List String

/-- Token test `classList.contains(tok)`. -/
def ClassList.has (cl : ClassList) (tok : String) : Bool :=
  cl.contains tok

/-- Token insertion `classList.add(tok)`: appended when not yet present. -/
def ClassList.add (cl : ClassList) (tok : String) : ClassList :=
  if cl.contains tok then cl else cl ++ [tok]

/-- Token removal `classList.remove(tok)`. -/
def ClassList.remove (cl : ClassList) (tok : String) : ClassList :=
  cl.filter (fun c => c != tok)

/-! ## Errors -/

/-- The exceptions the script can raise: reading a property of `null`. -/
inductive JsError where
  | typeError (what : String)
  deriving DecidableEq, Repr

/-! ## Layout -/

/-- A DOM element handle. -/
abbrev Elem := Nat

/-- The live document as one callback turn sees it. -/
structure Env where
  /-- Value of `window.scrollY`. -/
  scrollY : Int
  /-- Value of `navbar.offsetHeight`. -/
  navHeight : Int
  /-- Result of `document.querySelectorAll('section[id]')`, in document order. -/
  sections : List Elem
  /-- Value of `el.offsetTop`. -/
  offsetTop : Elem → Int
  /-- Value of `el.offsetHeight`. -/
  offsetHeight : Elem → Int
  /-- Value of `el.getAttribute('id')`. -/
  idOf : Elem → String

/-- The containment test both loops use:
`scrollPosition >= sectionTop && scrollPosition < sectionTop + sectionHeight`. -/
def Env.inRange (env : Env) (p : Int) (s : Elem) : Bool :=
  decide (p ≥ env.offsetTop s) && decide (p < env.offsetTop s + env.offsetHeight s)

/-- A navigation link: its `href` attribute and its class list. -/
structure NavLink where
  href : Option String
  classList : ClassList
  deriving DecidableEq, Repr

/-- Whether the link carries the `active` class. -/
def NavLink.isActive (l : NavLink) : Bool :=
  ClassList.has l.classList "active"

/-! ## Scroll handlers -/

/-- The function `handleNavbarScroll` (lines 21-27), on the navbar's class list
(`none` when `document.querySelector('.navbar')` found nothing). -/
def handleNavbarScroll (scrollY : Int) (navbar : Option ClassList) :
    Except JsError ClassList :=
  match navbar with
  | none => .error (.typeError "navbar is null")
  | some cl =>
    if scrollY > 50 then .ok (ClassList.add cl "scrolled")
    else .ok (ClassList.remove cl "scrolled")

/-- The function `handleScrollTopButton` (lines 88-94), on the button's class list
(`none` when `document.querySelector('.scroll-top')` found nothing). -/
def handleScrollTopButton (scrollY : Int) (scrollTopBtn : Option ClassList) :
    Except JsError ClassList :=
  match scrollTopBtn with
  | none => .error (.typeError "scrollTopBtn is null")
  | some cl =>
    if scrollY > 300 then .ok (ClassList.add cl "visible")
    else .ok (ClassList.remove cl "visible")

/-! ## Active-section highlighter and section locator -/

/-- The inner `navLinks.forEach` of `highlightActiveSection` (lines 193-198):
every link loses `active`, and gets it back when its `href` is `#` + the id. -/
def markLinks (sectionId : String) (links : List NavLink) : List NavLink :=
  links.map fun link =>
    let cl := ClassList.remove link.classList "active"
    if link.href = some ("#" ++ sectionId) then
      { link with classList := ClassList.add cl "active" }
    else
      { link with classList := cl }

/-- The `sections.forEach` loop of `highlightActiveSection` (lines 187-200) at the
effective position `p`: it visits every section, without leaving the loop. -/
def highlightLoop (env : Env) (p : Int) (secs : List Elem) (links : List NavLink) :
    List NavLink :=
  secs.foldl (fun ls s => if env.inRange p s then markLinks (env.idOf s) ls else ls) links

/-- The function `highlightActiveSection` (lines 182-201). -/
def highlightActiveSection (env : Env) (links : List NavLink) : List NavLink :=
  highlightLoop env (env.scrollY + env.navHeight + 100) env.sections links

/-- The `for (const section of sections)` loop of `getCurrentSection`
(lines 299-307) at the effective position `p`: the first hit is returned. -/
def locateLoop (env : Env) (p : Int) : List Elem → Option Elem
  | [] => none
  | s :: rest => if env.inRange p s then some s else locateLoop env p rest

/-- The function `getCurrentSection` (lines 294-308). -/
def getCurrentSection (env : Env) : Option Elem :=
  locateLoop env (env.scrollY + env.navHeight + 50) env.sections

/-- Two sections do not overlap: their ranges `[top, top + height)` are disjoint. -/
def Env.disjoint (env : Env) (a b : Elem) : Prop :=
  ∀ p : Int, ¬ (env.inRange p a = true ∧ env.inRange p b = true)

/-- The sections of the page are pairwise non-overlapping. -/
def Env.nonOverlapping (env : Env) : Prop :=
  env.sections.Pairwise env.disjoint

/-- The layout of the end-to-end scenario: `intro` [0,400), `about` [400,900),
`contact` [900,1300), as elements 0, 1, 2. -/
def scenarioEnv (scrollY : Int) : Env where
  scrollY := scrollY
  navHeight := 80
  sections := [0, 1, 2]
  offsetTop := fun e => if e = 0 then 0 else if e = 1 then 400 else 900
  offsetHeight := fun e => if e = 0 then 400 else if e = 1 then 500 else 400
  idOf := fun e => if e = 0 then "intro" else if e = 1 then "about" else "contact"

/-- The three navigation links of the scenario, `which` carrying `active`. -/
def scenarioLinks (which : String) : List NavLink :=
  ["#intro", "#about", "#contact"].map fun h =>
    { href := some h, classList := if h = which then ["active"] else [] }

/-- The last section of the list, in iteration order, whose range contains `p`. -/
def lastMatch (env : Env) (p : Int) : List Elem → Option Elem
  | [] => none
  | s :: rest =>
    match lastMatch env p rest with
    | some r => some r
    | none => if env.inRange p s then some s else none

/-- A layout with two overlapping sections: `a` [0,500) and `b` [300,800), as
elements 0 and 1; the effective position of the highlighter is 400. -/
def overlapEnv : Env where
  scrollY := 220
  navHeight := 80
  sections := [0, 1]
  offsetTop := fun e => if e = 0 then 0 else 300
  offsetHeight := fun _ => 500
  idOf := fun e => if e = 0 then "a" else "b"

/-- The two navigation links of the overlapping layout, none active. -/
def overlapLinks : List NavLink :=
  [{ href := some "#a", classList := [] }, { href := some "#b", classList := [] }]

/-! ## Contact form -/

/-- The fields `handleFormSubmit` reads with `formData.get`; `none` is `null`. -/
structure ContactData where
  name : Option String
  email : Option String
  company : Option String
  message : Option String
  deriving DecidableEq, Repr

/-- JavaScript falsiness of a value that is `null` or a string: `!v`. -/
def isBlank : Option String → Bool
  | none => true
  | some s => s.data.isEmpty

/-- The characters of the class `\s` of ECMAScript (white space and line ends). -/
def isJsSpace (c : Char) : Bool :=
  let n := c.toNat
  n == 0x09 || n == 0x0A || n == 0x0B || n == 0x0C || n == 0x0D || n == 0x20 ||
  n == 0xA0 || n == 0x1680 || (0x2000 ≤ n && n ≤ 0x200A) || n == 0x2028 ||
  n == 0x2029 || n == 0x202F || n == 0x205F || n == 0x3000 || n == 0xFEFF

/-- The class `[^\s@]`. -/
def notSpaceAt (c : Char) : Bool :=
  !(isJsSpace c) && c != '@'

/-- One item of a pattern: a literal character, or `[...]+` over a class. -/
inductive PatItem where
  | lit (c : Char)
  | plus (cls : Char → Bool)

/-- Anchored backtracking match of a sequence of items against the whole input
(`^ ... $`). -/
def matchItems : List PatItem → List Char → Bool
  | [], [] => true
  | [], _ :: _ => false
  | _ :: _, [] => false
  | PatItem.lit c :: rest, ch :: s => ch == c && matchItems rest s
  | PatItem.plus cls :: rest, ch :: s =>
    cls ch && (matchItems rest s || matchItems (PatItem.plus cls :: rest) s)

/-- The pattern `emailRegex`, `/^[^\s@]+@[^\s@]+\.[^\s@]+$/` (line 129). -/
def emailRegex : List PatItem :=
  [PatItem.plus notSpaceAt, PatItem.lit '@', PatItem.plus notSpaceAt, PatItem.lit '.',
   PatItem.plus notSpaceAt]

/-- Evaluation of `emailRegex.test(email)`. -/
def emailRegexTest (email : String) : Bool :=
  matchItems emailRegex email.data

/-- What a submission does: the text passed to `alert`, and whether
`contactForm.reset()` ran. -/
structure SubmitOutcome where
  alert : String
  reset : Bool
  deriving DecidableEq, Repr

/-- Text of the missing-fields alert (line 124). -/
def msgRequired : String := "Please fill in all required fields."

/-- Text of the malformed-email alert (line 131). -/
def msgEmail : String := "Please enter a valid email address."

/-- Text of the success alert (line 140). -/
def msgThanks : String := "Thank you for your message! We'll get back to you soon."

/-- The function `handleFormSubmit` (lines 111-144). -/
def handleFormSubmit (data : ContactData) : SubmitOutcome :=
  if isBlank data.name || isBlank data.email || isBlank data.message then
    { alert := msgRequired, reset := false }
  else if !(emailRegexTest (data.email.getD "")) then
    { alert := msgEmail, reset := false }
  else
    { alert := msgThanks, reset := true }

/-- The shape `A@B.C` with `A`, `B`, `C` non-empty and free of white space and `@`. -/
def EmailShape (email : String) : Prop :=
  ∃ a b c : List Char, email.data = a ++ '@' :: (b ++ '.' :: c) ∧
    a ≠ [] ∧ b ≠ [] ∧ c ≠ [] ∧
    (∀ x ∈ a, notSpaceAt x = true) ∧ (∀ x ∈ b, notSpaceAt x = true) ∧
    (∀ x ∈ c, notSpaceAt x = true)

/-! ## Reveal animator -/

/-- An `IntersectionObserverEntry`, as far as the callback reads it. -/
structure Entry where
  target : Elem
  isIntersecting : Bool
  deriving DecidableEq, Repr

/-- The observer of `animateOnScroll`: its observation targets, and the log of
the elements on which the reveal transition was started (one item for each run
of the `if (entry.isIntersecting)` branch, lines 156-163). -/
structure Revealer where
  observed : List Elem
  revealed : List Elem
  deriving DecidableEq, Repr

/-- The call `observer.observe(el)`: a target is registered once. -/
def Revealer.observe (r : Revealer) (el : Elem) : Revealer :=
  if el ∈ r.observed then r else { r with observed := r.observed ++ [el] }

/-- The call `observer.unobserve(el)`. -/
def Revealer.unobserve (r : Revealer) (el : Elem) : Revealer :=
  { r with observed := r.observed.filter (fun x => x != el) }

/-- The observer callback (lines 153-167), run on one batch of entries. -/
def Revealer.callback (r : Revealer) (entries : List Entry) : Revealer :=
  entries.foldl
    (fun st entry =>
      if entry.isIntersecting then
        Revealer.unobserve { st with revealed := st.revealed ++ [entry.target] } entry.target
      else st)
    r

/-- The function `animateOnScroll` (lines 150-176): a new observer with every
selected element observed. -/
def animateOnScroll (elements : List Elem) : Revealer :=
  elements.foldl Revealer.observe { observed := [], revealed := [] }

/-- One rendering update of the browser: `change el` is the new intersection
state of `el` when it crossed the threshold in this update. The observer builds
one entry for each observation target that changed, and delivers the batch. -/
def Revealer.frame (r : Revealer) (change : Elem → Option Bool) : Revealer :=
  Revealer.callback r
    (r.observed.filterMap fun el => (change el).map fun b => { target := el, isIntersecting := b })

/-- A run of rendering updates. -/
def Revealer.run (r : Revealer) (frames : List (Elem → Option Bool)) : Revealer :=
  frames.foldl Revealer.frame r

/-! ## Timers on a virtual clock -/

/-- A pending timer: its handle, the time it is due, and its callback. -/
structure Timer (κ : Type) where
  id : Nat
  due : Nat
  cb : κ

/-- The event loop: the clock, the next timer handle (handles are positive),
the pending timers in the order they were set, and the script's own state. -/
structure Loop (κ σ : Type) where
  now : Nat
  nextId : Nat
  timers : List (Timer κ)
  st : σ

/-- The call `setTimeout(cb, delay)`; the new handle is the first component. -/
def Loop.setTimeout {κ σ : Type} (l : Loop κ σ) (cb : κ) (delay : Nat) : Nat × Loop κ σ :=
  (l.nextId,
   { l with nextId := l.nextId + 1,
            timers := l.timers ++ [{ id := l.nextId, due := l.now + delay, cb := cb }] })

/-- The call `clearTimeout(h)`; `none` stands for `null` and `undefined`. -/
def Loop.clearTimeout {κ σ : Type} (l : Loop κ σ) (h : Option Nat) : Loop κ σ :=
  match h with
  | none => l
  | some i => { l with timers := l.timers.filter (fun t => t.id != i) }

/-- The pending timer that is due first (the one set first, among equals). -/
def earliest {κ : Type} : List (Timer κ) → Option (Timer κ)
  | [] => none
  | x :: xs =>
    match earliest xs with
    | none => some x
    | some y => if x.due ≤ y.due then some x else some y

/-- The next timer to fire when the clock moves to `t`, if one is due by then. -/
def nextDue {κ : Type} (t : Nat) (q : List (Timer κ)) : Option (Timer κ) :=
  (earliest q).filter (fun tm => tm.due ≤ t)

/-- Moving the clock to `t`, firing the due timers in order; `run` is the body
of a timer callback. Each unit of fuel fires one timer or completes the move;
without fuel the clock stays where it is. -/
def Loop.advance {κ σ : Type} (run : κ → Loop κ σ → Loop κ σ) :
    Nat → Nat → Loop κ σ → Loop κ σ
  | 0, _, l => l
  | fuel + 1, t, l =>
    match nextDue t l.timers with
    | none => { l with now := max l.now t }
    | some tm =>
      Loop.advance run fuel t
        (run tm.cb { l with now := max l.now tm.due,
                            timers := l.timers.filter (fun x => x.id != tm.id) })

/-- Moving the clock to `t` with fuel for every pending timer. -/
def Loop.advanceTo {κ σ : Type} (run : κ → Loop κ σ → Loop κ σ) (t : Nat) (l : Loop κ σ) :
    Loop κ σ :=
  Loop.advance run (l.timers.length + 1) t l

/-! ## Debouncer -/

/-- The closure state of one function returned by `debounce(func, wait)`: the
variable `timeout`, and the log of the executions of `func` (time, arguments). -/
structure Debounced (α : Type) where
  timeout : Option Nat
  calls : List (Nat × α)

/-- The state right after `debounce(func, wait)` returned: `timeout` undefined. -/
def debounce (α : Type) : Loop α (Debounced α) :=
  { now := 0, nextId := 1, timers := [], st := { timeout := none, calls := [] } }

/-- The closure `later` (lines 343-346) of an invocation with arguments `args`. -/
def later {α : Type} (args : α) (l : Loop α (Debounced α)) : Loop α (Debounced α) :=
  let l1 := Loop.clearTimeout l l.st.timeout
  { l1 with st := { l1.st with calls := l1.st.calls ++ [(l1.now, args)] } }

/-- The function `executedFunction` (lines 342-349), invoked with `args`. -/
def executedFunction {α : Type} (wait : Nat) (args : α) (l : Loop α (Debounced α)) :
    Loop α (Debounced α) :=
  let l1 := Loop.clearTimeout l l.st.timeout
  let (h, l2) := Loop.setTimeout l1 args wait
  { l2 with st := { l2.st with timeout := some h } }

/-- An invocation of the debounced function at time `t`. -/
def invokeAt {α : Type} (wait : Nat) (l : Loop α (Debounced α)) (call : Nat × α) :
    Loop α (Debounced α) :=
  executedFunction wait call.2 (Loop.advanceTo later call.1 l)

/-- A sequence of invocations, each at its time. -/
def invokeAll {α : Type} (wait : Nat) (l : Loop α (Debounced α)) (calls : List (Nat × α)) :
    Loop α (Debounced α) :=
  calls.foldl (invokeAt wait) l

/-- Each invocation comes less than `wait` after the one before (and not before it). -/
def Burst (wait : Nat) : List Nat → Prop
  | [] => True
  | [_] => True
  | t :: u :: rest => t ≤ u ∧ u < t + wait ∧ Burst wait (u :: rest)

/-- One invocation is pending: the clock is at `t`, `func` has not run, and the
only timer is the one of the invocation with arguments `a`, due at `t + wait`. -/
def Debouncing {α : Type} (wait : Nat) (l : Loop α (Debounced α)) (t : Nat) (a : α) : Prop :=
  l.now = t ∧ l.st.calls = [] ∧
    ∃ id, l.timers = [{ id := id, due := t + wait, cb := a }] ∧ l.st.timeout = some id

/-! ## Resize position preserver -/

/-- The module variables `currentSection` and `resizeTimeout` (lines 291-292),
and the log of the `window.scrollTo` calls of the settlement (time, `top`). -/
structure ResizeState where
  currentSection : Option Elem
  resizeTimeout : Option Nat
  scrolls : List (Nat × Int)
  deriving DecidableEq, Repr

/-- JavaScript falsiness of a timer handle: `!resizeTimeout`. -/
def noHandle : Option Nat → Bool
  | none => true
  | some h => h == 0

/-- The state when the script is loaded: Idle. -/
def resizeIdle : Loop Unit ResizeState :=
  { now := 0, nextId := 1, timers := [],
    st := { currentSection := none, resizeTimeout := none, scrolls := [] } }

/-- The settlement callback (lines 318-333); `world t` is the document at time `t`. -/
def settle (world : Nat → Env) (_ : Unit) (l : Loop Unit ResizeState) : Loop Unit ResizeState :=
  let env := world l.now
  let scrolls :=
    match l.st.currentSection with
    | some s => l.st.scrolls ++ [(l.now, env.offsetTop s - env.navHeight)]
    | none => l.st.scrolls
  { l with st := { currentSection := none, resizeTimeout := none, scrolls := scrolls } }

/-- The function `handleResize` (lines 310-334). -/
def handleResize (world : Nat → Env) (l : Loop Unit ResizeState) : Loop Unit ResizeState :=
  let cur :=
    if noHandle l.st.resizeTimeout then getCurrentSection (world l.now)
    else l.st.currentSection
  let l1 := Loop.clearTimeout l l.st.resizeTimeout
  let (h, l2) := Loop.setTimeout l1 () 150
  { l2 with st := { l2.st with currentSection := cur, resizeTimeout := some h } }

/-- A resize signal at time `t`. -/
def resizeAt (world : Nat → Env) (l : Loop Unit ResizeState) (t : Nat) : Loop Unit ResizeState :=
  handleResize world (Loop.advanceTo (settle world) t l)

/-- A sequence of resize signals, each at its time. -/
def resizeAll (world : Nat → Env) (l : Loop Unit ResizeState) (ts : List Nat) :
    Loop Unit ResizeState :=
  ts.foldl (resizeAt world) l

/-- The states the script can reach from Idle: by resize signals and by the
clock moving on (which fires the settlement timer when it is due). -/
inductive Reachable (world : Nat → Env) : Loop Unit ResizeState → Prop
  | idle : Reachable world resizeIdle
  | resize {l : Loop Unit ResizeState} (t : Nat) :
      Reachable world l → Reachable world (resizeAt world l t)
  | tick {l : Loop Unit ResizeState} (t : Nat) :
      Reachable world l → Reachable world (Loop.advanceTo (settle world) t l)

/-- The layout of the resize scenario: `about` is element 1, at offset 400 until
time 100 and at offset 520 afterwards; the navbar is 80 high throughout. -/
def reflowWorld (t : Nat) : Env where
  scrollY := 300
  navHeight := 80
  sections := [0, 1, 2]
  offsetTop := fun e =>
    if e = 0 then 0 else if e = 1 then (if t < 100 then 400 else 520) else
      (if t < 100 then 900 else 1100)
  offsetHeight := fun e => if e = 0 then (if t < 100 then 400 else 520) else
    if e = 1 then (if t < 100 then 500 else 580) else 400
  idOf := fun e => if e = 0 then "intro" else if e = 1 then "about" else "contact"

/-- The state Idle: no timer pending, nothing captured. -/
def Idle (l : Loop Unit ResizeState) : Prop :=
  l.timers = [] ∧ l.st.currentSection = none ∧ l.st.resizeTimeout = none ∧ 0 < l.nextId

/-- The state Bursting: the clock is at `t`, `cur` is captured, the scroll log is
`log`, and the only timer is the settlement timer, due at `due`. -/
def Bursting (l : Loop Unit ResizeState) (t due : Nat) (cur : Option Elem)
    (log : List (Nat × Int)) : Prop :=
  l.now = t ∧ l.st.currentSection = cur ∧ l.st.scrolls = log ∧ 0 < l.nextId ∧
    ∃ id, 0 < id ∧ l.timers = [{ id := id, due := due, cb := () }] ∧
      l.st.resizeTimeout = some id

/-! ## Initialisation -/

/-- The event listeners `init` registers. -/
inductive Listener where
  | windowScroll
  | navToggleClick
  | anchorClick
  | scrollTopClick
  | formSubmit
  | documentClick
  | particleResize
  | windowResize
  deriving DecidableEq, Repr

/-- The page elements the script looks up (`none`: `querySelector` returned
`null`), the scroll offset, and the listeners registered so far. -/
structure Page where
  navbar : Option ClassList
  navToggle : Option ClassList
  navMenu : Option ClassList
  scrollTopBtn : Option ClassList
  contactForm : Bool
  hero : Bool
  scrollY : Int
  listeners : List Listener
  deriving DecidableEq, Repr

/-- Registration of a listener (`addEventListener`). -/
def Page.listen (pg : Page) (l : Listener) : Page :=
  { pg with listeners := pg.listeners ++ [l] }

/-- The registrations of `init` (lines 356-400), in order; those of the nav
toggle, the scroll-to-top button, the contact form and the hero are guarded. -/
def registerListeners (pg : Page) : Page :=
  let pg := pg.listen .windowScroll
  let pg := if pg.navToggle.isSome then pg.listen .navToggleClick else pg
  let pg := pg.listen .anchorClick
  let pg := if pg.scrollTopBtn.isSome then pg.listen .scrollTopClick else pg
  let pg := if pg.contactForm then pg.listen .formSubmit else pg
  let pg := pg.listen .documentClick
  let pg := if pg.hero then pg.listen .particleResize else pg
  pg.listen .windowResize

/-- The function `init` (lines 355-405): the registrations, then the two
initial calls (lines 403-404), which are not guarded. -/
def init (pg : Page) : Except JsError Page := do
  let pg := registerListeners pg
  let nb ← handleNavbarScroll pg.scrollY pg.navbar
  let pg := { pg with navbar := some nb }
  let sb ← handleScrollTopButton pg.scrollY pg.scrollTopBtn
  pure { pg with scrollTopBtn := some sb }

/-- The scroll listener that `init` registers (lines 357-361), once its debounce
timer fires: the two handlers in order (the highlighter runs last). -/
def scrollHandler (pg : Page) : Except JsError Page := do
  let nb ← handleNavbarScroll pg.scrollY pg.navbar
  let pg := { pg with navbar := some nb }
  let sb ← handleScrollTopButton pg.scrollY pg.scrollTopBtn
  pure { pg with scrollTopBtn := some sb }

/-- A page with every element present except the scroll-to-top button. -/
def pageWithoutScrollTop : Page :=
  { navbar := some [], navToggle := some [], navMenu := some [], scrollTopBtn := none,
    contactForm := true, hero := true, scrollY := 0, listeners := [] }


/-! ## Properties: class lists -/

theorem ClassList.has_add (cl : ClassList) (tok : String) :
    ClassList.has (ClassList.add cl tok) tok = true := by
  unfold ClassList.has ClassList.add
  split <;> simp_all

theorem ClassList.has_remove (cl : ClassList) (tok : String) :
    ClassList.has (ClassList.remove cl tok) tok = false := by
  simp [ClassList.has, ClassList.remove]

theorem ClassList.remove_remove (cl : ClassList) (tok : String) :
    ClassList.remove (ClassList.remove cl tok) tok = ClassList.remove cl tok := by
  simp [ClassList.remove, List.filter_filter]

theorem ClassList.remove_add_remove (cl : ClassList) (tok : String) :
    ClassList.remove (ClassList.add (ClassList.remove cl tok) tok) tok
      = ClassList.remove cl tok := by
  have h : (ClassList.remove cl tok).contains tok = false := ClassList.has_remove cl tok
  simp only [ClassList.add, h]
  simp [ClassList.remove, List.filter_append, List.filter_filter]

/-! ## Properties: scroll thresholds -/

/-- Claim C4: for every scroll position `p` and whatever the class lists were
before, `handleNavbarScroll` leaves `scrolled` on the navbar exactly when
`p > 50` and `handleScrollTopButton` leaves `visible` on the button exactly when
`p > 300`; at `p = 50` the navbar is not compact and at `p = 300` the button is
not visible. -/
theorem scroll_thresholds (p : Int) (nav btn : ClassList) :
    (∃ nav', handleNavbarScroll p (some nav) = .ok nav' ∧
        (ClassList.has nav' "scrolled" = true ↔ p > 50)) ∧
    (∃ btn', handleScrollTopButton p (some btn) = .ok btn' ∧
        (ClassList.has btn' "visible" = true ↔ p > 300)) ∧
    (∃ nav', handleNavbarScroll 50 (some nav) = .ok nav' ∧
        ClassList.has nav' "scrolled" = false) ∧
    (∃ btn', handleScrollTopButton 300 (some btn) = .ok btn' ∧
        ClassList.has btn' "visible" = false) := by
  refine ⟨?_, ?_, ?_, ?_⟩
  · by_cases h : p > 50
    · exact ⟨ClassList.add nav "scrolled", by simp [handleNavbarScroll, h],
        by simp [ClassList.has_add, h]⟩
    · exact ⟨ClassList.remove nav "scrolled", by simp [handleNavbarScroll, h],
        by simp [ClassList.has_remove, h]⟩
  · by_cases h : p > 300
    · exact ⟨ClassList.add btn "visible", by simp [handleScrollTopButton, h],
        by simp [ClassList.has_add, h]⟩
    · exact ⟨ClassList.remove btn "visible", by simp [handleScrollTopButton, h],
        by simp [ClassList.has_remove, h]⟩
  · exact ⟨ClassList.remove nav "scrolled", by simp [handleNavbarScroll],
      ClassList.has_remove _ _⟩
  · exact ⟨ClassList.remove btn "visible", by simp [handleScrollTopButton],
      ClassList.has_remove _ _⟩

/-! ## Properties: section locator -/

theorem locateLoop_eq_none (env : Env) (p : Int) (secs : List Elem) :
    locateLoop env p secs = none ↔ ∀ s ∈ secs, env.inRange p s = false := by
  induction secs with
  | nil => simp [locateLoop]
  | cons a rest ih =>
    by_cases h : env.inRange p a = true
    · simp [locateLoop, h]
    · simp [locateLoop, h, ih]

theorem locateLoop_eq_some (env : Env) (p : Int) (secs : List Elem) (s : Elem) :
    locateLoop env p secs = some s ↔
      ∃ pre post, secs = pre ++ s :: post ∧ env.inRange p s = true ∧
        ∀ x ∈ pre, env.inRange p x = false := by
  induction secs with
  | nil => simp [locateLoop]
  | cons a rest ih =>
    by_cases h : env.inRange p a = true
    · simp only [locateLoop, h, if_true, Option.some.injEq]
      constructor
      · rintro rfl
        exact ⟨[], rest, rfl, h, by simp⟩
      · rintro ⟨pre, post, hsplit, hs, hpre⟩
        cases pre with
        | nil => simpa using (List.cons.inj hsplit).1
        | cons b pre' =>
          have hb : a = b := (List.cons.inj hsplit).1
          have := hpre b (by simp)
          rw [← hb, h] at this
          exact absurd this (by simp)
    · have h' : env.inRange p a = false := by simpa using h
      simp only [locateLoop, h', Bool.false_eq_true, if_false, ih]
      constructor
      · rintro ⟨pre, post, hsplit, hs, hpre⟩
        refine ⟨a :: pre, post, by simp [hsplit], hs, ?_⟩
        intro x hx
        rcases List.mem_cons.mp hx with rfl | hx
        · exact h'
        · exact hpre x hx
      · rintro ⟨pre, post, hsplit, hs, hpre⟩
        cases pre with
        | nil =>
          have : a = s := (List.cons.inj hsplit).1
          rw [this, hs] at h'
          exact absurd h' (by simp)
        | cons b pre' =>
          refine ⟨pre', post, (List.cons.inj hsplit).2, hs, ?_⟩
          intro x hx
          exact hpre x (by simp [hx])

theorem unique_of_pairwise (env : Env) (p : Int) (secs : List Elem)
    (h : secs.Pairwise env.disjoint) (s t : Elem) (hs : s ∈ secs) (ht : t ∈ secs)
    (hps : env.inRange p s = true) (hpt : env.inRange p t = true) : s = t := by
  induction secs with
  | nil => cases hs
  | cons a rest ih =>
    rw [List.pairwise_cons] at h
    rcases List.mem_cons.mp hs with rfl | hs'
    · rcases List.mem_cons.mp ht with rfl | ht'
      · rfl
      · exact absurd ⟨hps, hpt⟩ (h.1 t ht' p)
    · rcases List.mem_cons.mp ht with rfl | ht'
      · exact absurd ⟨hpt, hps⟩ (h.1 s hs' p)
      · exact ih h.2 hs' ht'

theorem locateLoop_mem (env : Env) (p : Int) (secs : List Elem) (s : Elem)
    (h : locateLoop env p secs = some s) : s ∈ secs ∧ env.inRange p s = true := by
  obtain ⟨pre, post, hsplit, hs, _⟩ := (locateLoop_eq_some env p secs s).mp h
  exact ⟨by simp [hsplit], hs⟩

theorem locateLoop_congr (env env' : Env) (p : Int) (secs : List Elem)
    (htop : ∀ s ∈ secs, env'.offsetTop s = env.offsetTop s)
    (hheight : ∀ s ∈ secs, env'.offsetHeight s = env.offsetHeight s) :
    locateLoop env' p secs = locateLoop env p secs := by
  induction secs with
  | nil => rfl
  | cons a rest ih =>
    have h1 : env'.inRange p a = env.inRange p a := by
      simp [Env.inRange, htop a (by simp), hheight a (by simp)]
    simp only [locateLoop, h1]
    rw [ih (fun s hs => htop s (by simp [hs])) (fun s hs => hheight s (by simp [hs]))]

/-- Claim C3: with `p = scrollY + navHeight + 50`, `getCurrentSection` returns
the first section in iteration order whose range `[offsetTop, offsetTop +
offsetHeight)` contains `p`, returns `null` exactly when no section contains
`p`, returns the only section containing `p` when the sections are pairwise
non-overlapping, and returns the same result on any document with the same
sections, geometry, scroll offset and navbar height. -/
theorem getCurrentSection_spec (env : Env) :
    (∀ s, getCurrentSection env = some s ↔
      ∃ pre post, env.sections = pre ++ s :: post ∧
        env.inRange (env.scrollY + env.navHeight + 50) s = true ∧
        ∀ x ∈ pre, env.inRange (env.scrollY + env.navHeight + 50) x = false) ∧
    (getCurrentSection env = none ↔
      ∀ s ∈ env.sections, env.inRange (env.scrollY + env.navHeight + 50) s = false) ∧
    (env.nonOverlapping → ∀ s, getCurrentSection env = some s →
      ∀ t ∈ env.sections, env.inRange (env.scrollY + env.navHeight + 50) t = true → t = s) ∧
    (∀ env' : Env, env'.sections = env.sections → env'.scrollY = env.scrollY →
      env'.navHeight = env.navHeight →
      (∀ s ∈ env.sections, env'.offsetTop s = env.offsetTop s) →
      (∀ s ∈ env.sections, env'.offsetHeight s = env.offsetHeight s) →
      getCurrentSection env' = getCurrentSection env) := by
  refine ⟨fun s => locateLoop_eq_some env _ _ s, locateLoop_eq_none env _ _, ?_, ?_⟩
  · intro hno s hs t ht hpt
    obtain ⟨hmem, hps⟩ := locateLoop_mem env _ _ s hs
    exact unique_of_pairwise env _ _ hno t s ht hmem hpt hps
  · intro env' hsec hy hn htop hheight
    unfold getCurrentSection
    rw [hsec, hy, hn]
    exact locateLoop_congr env env' _ _ htop hheight

theorem scenarioEnv_nonOverlapping (y : Int) : (scenarioEnv y).nonOverlapping := by
  have key : ∀ a b : Elem, a < 3 → b < 3 → a ≠ b → (scenarioEnv y).disjoint a b := by
    intro a b ha hb hab p
    simp only [Env.inRange, scenarioEnv, Bool.and_eq_true, decide_eq_true_eq]
    interval_cases a <;> interval_cases b <;> simp_all <;> omega
  simp only [Env.nonOverlapping, scenarioEnv, List.pairwise_cons, List.mem_cons,
    List.mem_singleton, List.not_mem_nil, List.Pairwise.nil, and_true]
  refine ⟨?_, ?_, ?_⟩
  · rintro a (rfl | rfl | h)
    · exact key 0 1 (by decide) (by decide) (by decide)
    · exact key 0 2 (by decide) (by decide) (by decide)
    · exact absurd h id
  · rintro a (rfl | h)
    · exact key 1 2 (by decide) (by decide) (by decide)
    · exact absurd h id
  · intro a h
    exact absurd h id

/-- Witness of C3: in the scenario layout at scroll offset 270 (effective
position 400) the locator returns `about`, the only section containing it. -/
theorem getCurrentSection_spec_witness :
    getCurrentSection (scenarioEnv 270) = some 1 ∧
    ∀ t ∈ (scenarioEnv 270).sections,
      (scenarioEnv 270).inRange ((scenarioEnv 270).scrollY + (scenarioEnv 270).navHeight + 50) t
        = true → t = 1 :=
  ⟨by decide,
   (getCurrentSection_spec (scenarioEnv 270)).2.2.1 (scenarioEnv_nonOverlapping 270) 1
     (by decide)⟩


/-! ## Properties: active-section highlighter -/

theorem markLinks_markLinks (a b : String) (links : List NavLink) :
    markLinks b (markLinks a links) = markLinks b links := by
  simp only [markLinks, List.map_map]
  apply List.map_congr_left
  intro l _
  rcases l with ⟨href, cl⟩
  simp only [Function.comp]
  split_ifs <;> simp_all [ClassList.remove_add_remove, ClassList.remove_remove]

theorem markLinks_href (a : String) (links : List NavLink) :
    (markLinks a links).map NavLink.href = links.map NavLink.href := by
  simp only [markLinks, List.map_map]
  apply List.map_congr_left
  intro l _
  simp only [Function.comp]
  split <;> rfl

theorem markLinks_isActive (a : String) (links : List NavLink) :
    ∀ l ∈ markLinks a links, (l.isActive = true ↔ l.href = some ("#" ++ a)) := by
  intro l hl
  simp only [markLinks, List.mem_map] at hl
  obtain ⟨l0, _, rfl⟩ := hl
  by_cases h : l0.href = some ("#" ++ a)
  · simp [h, NavLink.isActive, ClassList.has_add]
  · simp [h, NavLink.isActive, ClassList.has_remove]

theorem markLinks_map_isActive (a : String) (links : List NavLink) :
    (markLinks a links).map NavLink.isActive
      = (links.map NavLink.href).map (fun o => decide (o = some ("#" ++ a))) := by
  simp only [markLinks, List.map_map]
  apply List.map_congr_left
  intro l _
  simp only [Function.comp]
  by_cases h : l.href = some ("#" ++ a)
  · simp [h, NavLink.isActive, ClassList.has_add]
  · simp [h, NavLink.isActive, ClassList.has_remove]

theorem highlightLoop_eq (env : Env) (p : Int) (secs : List Elem) (links : List NavLink) :
    highlightLoop env p secs links =
      match lastMatch env p secs with
      | none => links
      | some s => markLinks (env.idOf s) links := by
  induction secs generalizing links with
  | nil => rfl
  | cons a rest ih =>
    have step : highlightLoop env p (a :: rest) links =
        highlightLoop env p rest
          (if env.inRange p a = true then markLinks (env.idOf a) links else links) := rfl
    rw [step, ih]
    simp only [lastMatch]
    cases hl : lastMatch env p rest with
    | none => by_cases h : env.inRange p a = true <;> simp [h]
    | some r =>
      by_cases h : env.inRange p a = true <;> simp [h, markLinks_markLinks]

theorem lastMatch_eq_none (env : Env) (p : Int) (secs : List Elem) :
    lastMatch env p secs = none ↔ ∀ s ∈ secs, env.inRange p s = false := by
  induction secs with
  | nil => simp [lastMatch]
  | cons a rest ih =>
    simp only [lastMatch]
    cases hl : lastMatch env p rest with
    | none =>
      have hrest := ih.mp hl
      by_cases h : env.inRange p a = true
      · simp [h]
      · simpa [h] using hrest
    | some r =>
      have : ¬ ∀ s ∈ rest, env.inRange p s = false := fun hall => by
        rw [ih.mpr hall] at hl
        cases hl
      simp only [reduceCtorEq, false_iff]
      intro hall
      exact this (fun s hs => hall s (by simp [hs]))

theorem lastMatch_eq_some (env : Env) (p : Int) (secs : List Elem) (s : Elem) :
    lastMatch env p secs = some s ↔
      ∃ pre post, secs = pre ++ s :: post ∧ env.inRange p s = true ∧
        ∀ x ∈ post, env.inRange p x = false := by
  induction secs generalizing s with
  | nil => simp [lastMatch]
  | cons a rest ih =>
    simp only [lastMatch]
    cases hl : lastMatch env p rest with
    | some r =>
      simp only [Option.some.injEq]
      constructor
      · rintro rfl
        obtain ⟨pre, post, hsplit, hr, hpost⟩ := (ih r).mp hl
        exact ⟨a :: pre, post, by simp [hsplit], hr, hpost⟩
      · rintro ⟨pre, post, hsplit, hs, hpost⟩
        cases pre with
        | nil =>
          have hrest : rest = post := (List.cons.inj hsplit).2
          have hnone := (lastMatch_eq_none env p rest).mpr (hrest ▸ hpost)
          rw [hnone] at hl
          cases hl
        | cons b pre' =>
          have hsome := (ih s).mpr ⟨pre', post, (List.cons.inj hsplit).2, hs, hpost⟩
          rw [hsome] at hl
          exact (Option.some.inj hl).symm
    | none =>
      have hall := (lastMatch_eq_none env p rest).mp hl
      constructor
      · intro h
        by_cases ha : env.inRange p a = true
        · simp only [ha, if_true, Option.some.injEq] at h
          subst h
          exact ⟨[], rest, rfl, ha, hall⟩
        · simp [ha] at h
      · rintro ⟨pre, post, hsplit, hs, hpost⟩
        cases pre with
        | nil =>
          have : a = s := (List.cons.inj hsplit).1
          subst this
          simp [hs]
        | cons b pre' =>
          have hrest : rest = pre' ++ s :: post := (List.cons.inj hsplit).2
          have := hall s (by simp [hrest])
          rw [hs] at this
          cases this

theorem lastMatch_eq_locateLoop (env : Env) (p : Int) (secs : List Elem)
    (h : secs.Pairwise env.disjoint) : lastMatch env p secs = locateLoop env p secs := by
  cases hl : lastMatch env p secs with
  | none =>
    exact ((locateLoop_eq_none env p secs).mpr ((lastMatch_eq_none env p secs).mp hl)).symm
  | some s =>
    obtain ⟨pre, post, hsplit, hs, _⟩ := (lastMatch_eq_some env p secs s).mp hl
    have hmem : s ∈ secs := by simp [hsplit]
    cases hloc : locateLoop env p secs with
    | none =>
      have := (locateLoop_eq_none env p secs).mp hloc s hmem
      rw [hs] at this
      cases this
    | some t =>
      obtain ⟨htmem, ht⟩ := locateLoop_mem env p secs t hloc
      rw [unique_of_pairwise env p secs h s t hmem htmem hs ht]

theorem scenarioLinks_href (prev : String) :
    (scenarioLinks prev).map NavLink.href = [some "#intro", some "#about", some "#contact"] := by
  simp [scenarioLinks]

/-- Claim C1: for non-overlapping sections and `p = scrollY + navHeight + 100`,
after `highlightActiveSection` the links are the same links in the same order
and, when a section contains `p`, a link is active exactly when its `href` is
`#` followed by that section's id; when no section contains `p` every link is
as it was. In the scenario (`intro` [0,400), `about` [400,900), `contact`
[900,1300), navbar 80 high), scroll offset 250 activates `about` only, 50
activates `intro` only, and 1250 leaves the links as they were. -/
theorem highlightActiveSection_spec (env : Env) (links : List NavLink)
    (h : env.nonOverlapping) :
    (∀ s ∈ env.sections, env.inRange (env.scrollY + env.navHeight + 100) s = true →
      (highlightActiveSection env links).map NavLink.href = links.map NavLink.href ∧
      ∀ l ∈ highlightActiveSection env links,
        (l.isActive = true ↔ l.href = some ("#" ++ env.idOf s))) ∧
    ((∀ s ∈ env.sections, env.inRange (env.scrollY + env.navHeight + 100) s = false) →
      highlightActiveSection env links = links) ∧
    (∀ prev : String,
      (highlightActiveSection (scenarioEnv 250) (scenarioLinks prev)).map NavLink.isActive
        = [false, true, false] ∧
      (highlightActiveSection (scenarioEnv 50) (scenarioLinks prev)).map NavLink.isActive
        = [true, false, false] ∧
      highlightActiveSection (scenarioEnv 1250) (scenarioLinks prev) = scenarioLinks prev) := by
  refine ⟨?_, ?_, ?_⟩
  · intro s hs hps
    have hlast : lastMatch env (env.scrollY + env.navHeight + 100) env.sections = some s := by
      rw [lastMatch_eq_locateLoop env _ _ h]
      cases hloc : locateLoop env (env.scrollY + env.navHeight + 100) env.sections with
      | none =>
        have := (locateLoop_eq_none env _ _).mp hloc s hs
        rw [hps] at this
        cases this
      | some t =>
        obtain ⟨htmem, ht⟩ := locateLoop_mem env _ _ t hloc
        rw [unique_of_pairwise env _ _ h t s htmem hs ht hps]
    have heq : highlightActiveSection env links = markLinks (env.idOf s) links := by
      unfold highlightActiveSection
      rw [highlightLoop_eq, hlast]
    rw [heq]
    exact ⟨markLinks_href _ _, markLinks_isActive _ _⟩
  · intro hnone
    unfold highlightActiveSection
    rw [highlightLoop_eq, (lastMatch_eq_none env _ _).mpr hnone]
  · intro prev
    refine ⟨?_, ?_, ?_⟩
    · have hl : lastMatch (scenarioEnv 250)
          ((scenarioEnv 250).scrollY + (scenarioEnv 250).navHeight + 100)
          (scenarioEnv 250).sections = some 1 := by decide
      unfold highlightActiveSection
      rw [highlightLoop_eq, hl]
      rw [markLinks_map_isActive, scenarioLinks_href]
      decide
    · have hl : lastMatch (scenarioEnv 50)
          ((scenarioEnv 50).scrollY + (scenarioEnv 50).navHeight + 100)
          (scenarioEnv 50).sections = some 0 := by decide
      unfold highlightActiveSection
      rw [highlightLoop_eq, hl]
      rw [markLinks_map_isActive, scenarioLinks_href]
      decide
    · have hl : lastMatch (scenarioEnv 1250)
          ((scenarioEnv 1250).scrollY + (scenarioEnv 1250).navHeight + 100)
          (scenarioEnv 1250).sections = none := by decide
      unfold highlightActiveSection
      rw [highlightLoop_eq, hl]

/-- Witness of C1: the scenario layout at scroll offset 250 is non-overlapping,
`about` (element 1) contains the effective position 430, and exactly the link
to `#about` is active afterwards. -/
theorem highlightActiveSection_spec_witness :
    (scenarioEnv 250).nonOverlapping ∧
    (scenarioEnv 250).inRange 430 1 = true ∧
    ∀ l ∈ highlightActiveSection (scenarioEnv 250) (scenarioLinks "#intro"),
      (l.isActive = true ↔ l.href = some "#about") :=
  ⟨scenarioEnv_nonOverlapping 250, by decide,
   ((highlightActiveSection_spec (scenarioEnv 250) (scenarioLinks "#intro")
      (scenarioEnv_nonOverlapping 250)).1 1 (by decide) (by decide)).2⟩

/-- What the `forEach` of `highlightActiveSection` does on any section list,
overlapping or not: when `s` is the last section in iteration order whose range
contains the effective position, the links keep their order and a link is
active exactly when its `href` is `#` followed by the id of `s`. The loop of
`getCurrentSection` returns the same `s` for that position exactly when no
earlier section contains the position. -/
theorem highlightActiveSection_last_wins (env : Env) (links : List NavLink)
    (pre post : List Elem) (s : Elem)
    (hsplit : env.sections = pre ++ s :: post)
    (hs : env.inRange (env.scrollY + env.navHeight + 100) s = true)
    (hpost : ∀ x ∈ post, env.inRange (env.scrollY + env.navHeight + 100) x = false) :
    (highlightActiveSection env links).map NavLink.href = links.map NavLink.href ∧
    (∀ l ∈ highlightActiveSection env links,
      (l.isActive = true ↔ l.href = some ("#" ++ env.idOf s))) ∧
    ((∀ x ∈ pre, env.inRange (env.scrollY + env.navHeight + 100) x = false) →
      locateLoop env (env.scrollY + env.navHeight + 100) env.sections = some s) := by
  have hlast : lastMatch env (env.scrollY + env.navHeight + 100) env.sections = some s :=
    (lastMatch_eq_some env _ _ s).mpr ⟨pre, post, hsplit, hs, hpost⟩
  have heq : highlightActiveSection env links = markLinks (env.idOf s) links := by
    unfold highlightActiveSection
    rw [highlightLoop_eq, hlast]
  refine ⟨?_, ?_, ?_⟩
  · rw [heq]
    exact markLinks_href _ _
  · rw [heq]
    exact markLinks_isActive _ _
  · intro hpre
    exact (locateLoop_eq_some env _ _ s).mpr ⟨pre, post, hsplit, hs, hpre⟩

/-- Claim C10 fails on the code: with the overlapping sections `a` [0,500) and
`b` [300,800), scroll offset 220 and a navbar 80 high (effective position 400),
both sections contain the position; the loop of `getCurrentSection` returns
`a`, the first match in iteration order, while `highlightActiveSection`, whose
`forEach` goes on after a match, leaves the link of `b` active and the link of
`a` inactive. So the highlighter does not leave the first matching section
active, as the claim requires for every section list. -/
theorem highlight_not_first_match :
    overlapEnv.inRange (overlapEnv.scrollY + overlapEnv.navHeight + 100) 0 = true ∧
    overlapEnv.inRange (overlapEnv.scrollY + overlapEnv.navHeight + 100) 1 = true ∧
    locateLoop overlapEnv (overlapEnv.scrollY + overlapEnv.navHeight + 100) overlapEnv.sections
      = some 0 ∧
    overlapEnv.idOf 0 = "a" ∧
    highlightActiveSection overlapEnv overlapLinks
      = [{ href := some "#a", classList := [] }, { href := some "#b", classList := ["active"] }] ∧
    ¬ (∀ (env : Env) (links : List NavLink) (s : Elem),
        locateLoop env (env.scrollY + env.navHeight + 100) env.sections = some s →
        ∀ l ∈ highlightActiveSection env links,
          (l.isActive = true ↔ l.href = some ("#" ++ env.idOf s))) := by
  have h3 : highlightActiveSection overlapEnv overlapLinks
      = [{ href := some "#a", classList := [] },
         { href := some "#b", classList := ["active"] }] := by decide
  refine ⟨by decide, by decide, by decide, by decide, h3, ?_⟩
  intro hall
  have := hall overlapEnv overlapLinks 0 (by decide) { href := some "#a", classList := [] }
    (by rw [h3]; simp)
  revert this
  decide

/-! ## Properties: initialisation -/

theorem registerListeners_elements (pg : Page) :
    (registerListeners pg).navbar = pg.navbar ∧
    (registerListeners pg).scrollTopBtn = pg.scrollTopBtn := by
  unfold registerListeners
  simp only [Page.listen]
  split_ifs <;> exact ⟨rfl, rfl⟩

theorem init_ok_iff (pg : Page) :
    (∃ pg', init pg = .ok pg') ↔ pg.navbar.isSome = true ∧ pg.scrollTopBtn.isSome = true := by
  obtain ⟨h1, h2⟩ := registerListeners_elements pg
  unfold init
  generalize registerListeners pg = q at h1 h2
  rw [← h1, ← h2]
  rcases q with ⟨navbar, navToggle, navMenu, scrollTopBtn, contactForm, hero, scrollY, ls⟩
  cases navbar <;> cases scrollTopBtn <;>
    simp [handleNavbarScroll, handleScrollTopButton, bind, Except.bind, pure, Except.pure] <;>
    split_ifs <;> simp

/-- Claim C7 fails on the code: on a page that has every element except the
scroll-to-top button, `init` raises a `TypeError` in its final call of
`handleScrollTopButton` (line 404), and so does the scroll listener it
registered. -/
theorem init_throws_without_scrollTop :
    init pageWithoutScrollTop = .error (.typeError "scrollTopBtn is null") ∧
    scrollHandler pageWithoutScrollTop = .error (.typeError "scrollTopBtn is null") := by
  constructor <;> rfl

/-! ## Properties: contact form -/

theorem matchItems_nil (s : List Char) : matchItems [] s = true ↔ s = [] := by
  cases s <;> simp [matchItems]

theorem matchItems_lit (c : Char) (rest : List PatItem) (s : List Char) :
    matchItems (PatItem.lit c :: rest) s = true ↔
      ∃ r, s = c :: r ∧ matchItems rest r = true := by
  cases s with
  | nil => simp [matchItems]
  | cons ch s' =>
    simp only [matchItems, Bool.and_eq_true, beq_iff_eq, List.cons.injEq]
    constructor
    · rintro ⟨rfl, h⟩
      exact ⟨s', ⟨rfl, rfl⟩, h⟩
    · rintro ⟨r, ⟨rfl, rfl⟩, h⟩
      exact ⟨rfl, h⟩

theorem matchItems_plus (cls : Char → Bool) (rest : List PatItem) (s : List Char) :
    matchItems (PatItem.plus cls :: rest) s = true ↔
      ∃ a r, s = a ++ r ∧ a ≠ [] ∧ (∀ x ∈ a, cls x = true) ∧ matchItems rest r = true := by
  induction s with
  | nil =>
    simp only [matchItems, Bool.false_eq_true, false_iff]
    rintro ⟨a, r, h, ha, _⟩
    cases a with
    | nil => exact ha rfl
    | cons x a' => cases h
  | cons ch s' ih =>
    simp only [matchItems, Bool.and_eq_true, Bool.or_eq_true]
    constructor
    · rintro ⟨hch, h | h⟩
      · exact ⟨[ch], s', rfl, by simp, by simpa using hch, h⟩
      · obtain ⟨a, r, hs, _, hall, hr⟩ := ih.mp h
        refine ⟨ch :: a, r, by simp [hs], by simp, ?_, hr⟩
        intro x hx
        rcases List.mem_cons.mp hx with rfl | hx
        · exact hch
        · exact hall x hx
    · rintro ⟨a, r, hs, ha, hall, hr⟩
      cases a with
      | nil => exact absurd rfl ha
      | cons x a' =>
        have hx : ch = x := (List.cons.inj hs).1
        have hs' : s' = a' ++ r := (List.cons.inj hs).2
        refine ⟨hx ▸ hall x (by simp), ?_⟩
        cases a' with
        | nil =>
          left
          simpa [hs'] using hr
        | cons y a'' =>
          right
          exact ih.mpr ⟨y :: a'', r, hs', by simp, fun z hz => hall z (by simp [hz]), hr⟩

theorem emailRegexTest_iff (email : String) : emailRegexTest email = true ↔ EmailShape email := by
  unfold emailRegexTest emailRegex EmailShape
  rw [matchItems_plus]
  constructor
  · rintro ⟨a, r1, hs, ha, halla, h1⟩
    obtain ⟨r2, rfl, h2⟩ := (matchItems_lit _ _ _).mp h1
    obtain ⟨b, r3, rfl, hb, hallb, h3⟩ := (matchItems_plus _ _ _).mp h2
    obtain ⟨r4, rfl, h4⟩ := (matchItems_lit _ _ _).mp h3
    obtain ⟨c, r5, rfl, hc, hallc, h5⟩ := (matchItems_plus _ _ _).mp h4
    have : r5 = [] := (matchItems_nil r5).mp h5
    subst this
    exact ⟨a, b, c, by simpa using hs, ha, hb, hc, halla, hallb, hallc⟩
  · rintro ⟨a, b, c, hs, ha, hb, hc, halla, hallb, hallc⟩
    refine ⟨a, '@' :: (b ++ '.' :: c), hs, ha, halla, ?_⟩
    refine (matchItems_lit _ _ _).mpr ⟨b ++ '.' :: c, rfl, ?_⟩
    refine (matchItems_plus _ _ _).mpr ⟨b, '.' :: c, rfl, hb, hallb, ?_⟩
    refine (matchItems_lit _ _ _).mpr ⟨c, rfl, ?_⟩
    exact (matchItems_plus _ _ _).mpr ⟨c, [], by simp, hc, hallc, (matchItems_nil []).mpr rfl⟩

theorem isBlank_iff (o : Option String) : isBlank o = true ↔ o = none ∨ o = some "" := by
  cases o with
  | none => simp [isBlank]
  | some s =>
    rcases s with ⟨cs⟩
    cases cs with
    | nil => simp [isBlank]
    | cons c cs' =>
      simp only [isBlank, List.isEmpty_cons, Bool.false_eq_true, reduceCtorEq,
        Option.some.injEq, false_or, false_iff]
      intro h
      have := congrArg String.data h
      simp at this

/-- Claim C8: `handleFormSubmit` shows the missing-fields alert, without reset,
exactly when name, email or message is absent or empty; otherwise it shows the
(different) malformed-email alert, without reset, exactly when the email is not
of the shape `A@B.C` with `A`, `B`, `C` non-empty and free of white space and
`@`; otherwise it shows the success alert and resets the form. The company
field never changes the outcome. -/
theorem handleFormSubmit_spec (d : ContactData) :
    (handleFormSubmit d = { alert := msgRequired, reset := false } ↔
      ((d.name = none ∨ d.name = some "") ∨ (d.email = none ∨ d.email = some "") ∨
        (d.message = none ∨ d.message = some ""))) ∧
    (handleFormSubmit d = { alert := msgEmail, reset := false } ↔
      (¬ ((d.name = none ∨ d.name = some "") ∨ (d.email = none ∨ d.email = some "") ∨
        (d.message = none ∨ d.message = some "")) ∧ ¬ EmailShape (d.email.getD ""))) ∧
    (handleFormSubmit d = { alert := msgThanks, reset := true } ↔
      (¬ ((d.name = none ∨ d.name = some "") ∨ (d.email = none ∨ d.email = some "") ∨
        (d.message = none ∨ d.message = some "")) ∧ EmailShape (d.email.getD ""))) ∧
    (∀ company, handleFormSubmit { d with company := company } = handleFormSubmit d) ∧
    msgRequired ≠ msgEmail ∧ msgRequired ≠ msgThanks ∧ msgEmail ≠ msgThanks := by
  have hblank : (isBlank d.name || isBlank d.email || isBlank d.message) = true ↔
      ((d.name = none ∨ d.name = some "") ∨ (d.email = none ∨ d.email = some "") ∨
        (d.message = none ∨ d.message = some "")) := by
    simp only [Bool.or_eq_true, isBlank_iff, or_assoc]
  have hre := emailRegexTest_iff (d.email.getD "")
  have h12 : msgRequired ≠ msgEmail := by decide
  have h13 : msgRequired ≠ msgThanks := by decide
  have h23 : msgEmail ≠ msgThanks := by decide
  refine ⟨?_, ?_, ?_, fun _ => rfl, h12, h13, h23⟩
  · unfold handleFormSubmit
    by_cases hb : (isBlank d.name || isBlank d.email || isBlank d.message) = true
    · simp only [hb, if_true, true_iff]
      exact hblank.mp hb
    · rw [if_neg hb]
      by_cases he : emailRegexTest (d.email.getD "") = true
      · simp only [he, Bool.not_true, Bool.false_eq_true, if_false, SubmitOutcome.mk.injEq]
        constructor
        · rintro ⟨_, h⟩
          cases h
        · intro h
          exact absurd (hblank.mpr h) hb
      · have he' : emailRegexTest (d.email.getD "") = false := by simpa using he
        simp only [he', Bool.not_false, if_true, SubmitOutcome.mk.injEq]
        constructor
        · rintro ⟨h, _⟩
          exact absurd h.symm h12
        · intro h
          exact absurd (hblank.mpr h) hb
  · unfold handleFormSubmit
    by_cases hb : (isBlank d.name || isBlank d.email || isBlank d.message) = true
    · simp only [hb, if_true, SubmitOutcome.mk.injEq]
      constructor
      · rintro ⟨h, _⟩
        exact absurd h h12
      · rintro ⟨h, _⟩
        exact absurd (hblank.mp hb) h
    · rw [if_neg hb]
      by_cases he : emailRegexTest (d.email.getD "") = true
      · simp only [he, Bool.not_true, Bool.false_eq_true, if_false, SubmitOutcome.mk.injEq]
        constructor
        · rintro ⟨_, h⟩
          cases h
        · rintro ⟨_, h⟩
          exact absurd (hre.mp he) h
      · have he' : emailRegexTest (d.email.getD "") = false := by simpa using he
        simp only [he', Bool.not_false, if_true, true_iff]
        exact ⟨fun h => hb (hblank.mpr h), fun h => he (hre.mpr h)⟩
  · unfold handleFormSubmit
    by_cases hb : (isBlank d.name || isBlank d.email || isBlank d.message) = true
    · simp only [hb, if_true, SubmitOutcome.mk.injEq]
      constructor
      · rintro ⟨_, h⟩
        cases h
      · rintro ⟨h, _⟩
        exact absurd (hblank.mp hb) h
    · rw [if_neg hb]
      by_cases he : emailRegexTest (d.email.getD "") = true
      · simp only [he, Bool.not_true, Bool.false_eq_true, if_false, true_iff]
        exact ⟨fun h => hb (hblank.mpr h), hre.mp he⟩
      · have he' : emailRegexTest (d.email.getD "") = false := by simpa using he
        simp only [he', Bool.not_false, if_true, SubmitOutcome.mk.injEq]
        constructor
        · rintro ⟨_, h⟩
          cases h
        · rintro ⟨_, h⟩
          exact absurd (hre.mpr h) he

/-! ## Properties: reveal animator -/

theorem Revealer.callback_eq (r : Revealer) (entries : List Entry) :
    Revealer.callback r entries =
      { observed := r.observed.filter
          (fun x => x ∉ (entries.filter (fun e => e.isIntersecting)).map Entry.target),
        revealed := r.revealed ++ (entries.filter (fun e => e.isIntersecting)).map Entry.target } := by
  induction entries generalizing r with
  | nil => simp [Revealer.callback]
  | cons e rest ih =>
    have step : Revealer.callback r (e :: rest) =
        Revealer.callback
          (if e.isIntersecting = true then
            Revealer.unobserve { r with revealed := r.revealed ++ [e.target] } e.target
           else r) rest := rfl
    rw [step, ih]
    by_cases he : e.isIntersecting = true
    · simp only [he, if_true, Revealer.unobserve, List.filter_filter, List.filter_cons_of_pos,
        List.map_cons, List.append_assoc, List.singleton_append, Revealer.mk.injEq, and_true]
      apply List.filter_congr
      intro x _
      simp only [List.mem_cons, not_or, decide_not, Bool.and_eq_true, bne_iff_ne, ne_eq,
        Bool.not_eq_true', decide_eq_false_iff_not, Bool.decide_and, Bool.decide_eq_true]
      rw [Bool.and_comm]
      congr 1
    · simp [he]

theorem Revealer.frame_eq (r : Revealer) (change : Elem → Option Bool) :
    Revealer.frame r change =
      { observed := r.observed.filter (fun x => ! decide (change x = some true)),
        revealed := r.revealed ++ r.observed.filter (fun x => decide (change x = some true)) } := by
  have hT : ((r.observed.filterMap fun el =>
        (change el).map fun b => ({ target := el, isIntersecting := b } : Entry)).filter
          (fun e => e.isIntersecting)).map Entry.target
      = r.observed.filter (fun x => decide (change x = some true)) := by
    induction r.observed with
    | nil => rfl
    | cons a rest ih =>
      cases hc : change a with
      | none => simp [List.filterMap_cons, hc, ih]
      | some b => cases b <;> simp [List.filterMap_cons, hc, ih]
  unfold Revealer.frame
  rw [Revealer.callback_eq, hT]
  simp only [Revealer.mk.injEq, and_true]
  apply List.filter_congr
  intro x hx
  simp [List.mem_filter, hx]


theorem Revealer.frame_spec (r : Revealer) (change : Elem → Option Bool)
    (h : (r.observed ++ r.revealed).Nodup) :
    ((Revealer.frame r change).observed ++ (Revealer.frame r change).revealed).Nodup ∧
    (∀ x, x ∈ (Revealer.frame r change).revealed ↔
      x ∈ r.revealed ∨ (x ∈ r.observed ∧ change x = some true)) ∧
    (∀ x, x ∈ (Revealer.frame r change).observed ↔
      x ∈ r.observed ∧ change x ≠ some true) := by
  rw [Revealer.frame_eq]
  obtain ⟨hobs, hrev, hdis⟩ := List.nodup_append.mp h
  refine ⟨?_, ?_, ?_⟩
  · simp only
    rw [List.nodup_append]
    refine ⟨hobs.filter _, ?_, ?_⟩
    · rw [List.nodup_append]
      refine ⟨hrev, hobs.filter _, ?_⟩
      intro x hx1 hx2
      exact hdis (List.mem_filter.mp hx2).1 hx1
    · intro x hx1 hx2
      rcases List.mem_append.mp hx2 with hx2 | hx2
      · exact hdis (List.mem_filter.mp hx1).1 hx2
      · have h1 := (List.mem_filter.mp hx1).2
        have h2 := (List.mem_filter.mp hx2).2
        simp only [Bool.not_eq_true', decide_eq_false_iff_not] at h1
        simp only [decide_eq_true_eq] at h2
        exact h1 h2
  · intro x
    simp [List.mem_filter]
  · intro x
    simp [List.mem_filter]

theorem Revealer.run_spec (frames : List (Elem → Option Bool)) (r : Revealer)
    (h : (r.observed ++ r.revealed).Nodup) :
    ((Revealer.run r frames).observed ++ (Revealer.run r frames).revealed).Nodup ∧
    (∀ x, x ∈ (Revealer.run r frames).revealed ↔
      x ∈ r.revealed ∨ (x ∈ r.observed ∧ ∃ f ∈ frames, f x = some true)) ∧
    (∀ x, x ∈ (Revealer.run r frames).observed ↔
      x ∈ r.observed ∧ ∀ f ∈ frames, f x ≠ some true) := by
  induction frames generalizing r with
  | nil => simp [Revealer.run, h]
  | cons f fs ih =>
    have step : Revealer.run r (f :: fs) = Revealer.run (Revealer.frame r f) fs := rfl
    obtain ⟨hn, hr, ho⟩ := Revealer.frame_spec r f h
    obtain ⟨hn', hr', ho'⟩ := ih (Revealer.frame r f) hn
    rw [step]
    refine ⟨hn', ?_, ?_⟩
    · intro x
      rw [hr', hr, ho]
      constructor
      · rintro ((hx | ⟨hx, hc⟩) | ⟨⟨hx, _⟩, g, hg, hgx⟩)
        · exact Or.inl hx
        · exact Or.inr ⟨hx, f, by simp, hc⟩
        · exact Or.inr ⟨hx, g, by simp [hg], hgx⟩
      · rintro (hx | ⟨hx, g, hg, hgx⟩)
        · exact Or.inl (Or.inl hx)
        · by_cases hc : f x = some true
          · exact Or.inl (Or.inr ⟨hx, hc⟩)
          · rcases List.mem_cons.mp hg with rfl | hg
            · exact absurd hgx hc
            · exact Or.inr ⟨⟨hx, hc⟩, g, hg, hgx⟩
    · intro x
      rw [ho', ho]
      constructor
      · rintro ⟨⟨hx, hc⟩, hall⟩
        refine ⟨hx, ?_⟩
        intro g hg
        rcases List.mem_cons.mp hg with rfl | hg
        · exact hc
        · exact hall g hg
      · rintro ⟨hx, hall⟩
        exact ⟨⟨hx, hall f (by simp)⟩, fun g hg => hall g (by simp [hg])⟩

theorem animateOnScroll_init (elements : List Elem) :
    (animateOnScroll elements).revealed = [] ∧
    (animateOnScroll elements).observed.Nodup ∧
    ∀ x, x ∈ (animateOnScroll elements).observed ↔ x ∈ elements := by
  have gen : ∀ (els : List Elem) (r : Revealer), r.revealed = [] → r.observed.Nodup →
      (els.foldl Revealer.observe r).revealed = [] ∧
      (els.foldl Revealer.observe r).observed.Nodup ∧
      ∀ x, x ∈ (els.foldl Revealer.observe r).observed ↔ x ∈ r.observed ∨ x ∈ els := by
    intro els
    induction els with
    | nil => intro r h1 h2; simp [h1, h2]
    | cons a rest ih =>
      intro r h1 h2
      have step : (a :: rest).foldl Revealer.observe r
          = rest.foldl Revealer.observe (Revealer.observe r a) := rfl
      rw [step]
      by_cases ha : a ∈ r.observed
      · have hobs : Revealer.observe r a = r := by simp [Revealer.observe, ha]
        rw [hobs]
        obtain ⟨i1, i2, i3⟩ := ih r h1 h2
        refine ⟨i1, i2, ?_⟩
        intro x
        rw [i3]
        constructor
        · rintro (hx | hx)
          · exact Or.inl hx
          · exact Or.inr (by simp [hx])
        · rintro (hx | hx)
          · exact Or.inl hx
          · rcases List.mem_cons.mp hx with rfl | hx
            · exact Or.inl ha
            · exact Or.inr hx
      · have hobs : Revealer.observe r a
            = { observed := r.observed ++ [a], revealed := r.revealed } := by
          simp [Revealer.observe, ha]
        rw [hobs]
        have hnd : (r.observed ++ [a]).Nodup := by
          rw [List.nodup_append]
          refine ⟨h2, by simp, ?_⟩
          intro x hx1 hx2
          rw [List.mem_singleton] at hx2
          exact ha (hx2 ▸ hx1)
        obtain ⟨i1, i2, i3⟩ := ih { observed := r.observed ++ [a], revealed := r.revealed } h1 hnd
        refine ⟨i1, i2, ?_⟩
        intro x
        rw [i3]
        simp only [List.mem_append, List.mem_singleton, List.mem_cons]
        tauto
  obtain ⟨g1, g2, g3⟩ := gen elements { observed := [], revealed := [] } rfl List.nodup_nil
  exact ⟨g1, g2, fun x => by rw [show animateOnScroll elements
    = elements.foldl Revealer.observe { observed := [], revealed := [] } from rfl, g3]; simp⟩

/-- Claim C9: for every list of observed elements and every run of rendering
updates, the reveal transition is started on each element at most once; it is
started exactly once on an element exactly when the element is observed and some
update reported it intersecting (however often it left and entered again); and
an element on which it was started is no longer observed. -/
theorem animateOnScroll_once (elements : List Elem) (frames : List (Elem → Option Bool))
    (el : Elem) :
    ((animateOnScroll elements).run frames).revealed.count el ≤ 1 ∧
    (((animateOnScroll elements).run frames).revealed.count el = 1 ↔
      el ∈ elements ∧ ∃ f ∈ frames, f el = some true) ∧
    (el ∈ ((animateOnScroll elements).run frames).revealed →
      el ∉ ((animateOnScroll elements).run frames).observed) := by
  obtain ⟨i1, i2, i3⟩ := animateOnScroll_init elements
  have hnd : ((animateOnScroll elements).observed ++ (animateOnScroll elements).revealed).Nodup := by
    rw [i1, List.append_nil]
    exact i2
  obtain ⟨hn, hr, _⟩ := Revealer.run_spec frames (animateOnScroll elements) hnd
  obtain ⟨hobs, hrev, hdis⟩ := List.nodup_append.mp hn
  refine ⟨List.nodup_iff_count_le_one.mp hrev el, ?_, fun h1 h2 => hdis h2 h1⟩
  constructor
  · intro hc
    have hmem : el ∈ ((animateOnScroll elements).run frames).revealed := by
      apply List.count_pos_iff.mp
      omega
    rcases (hr el).mp hmem with h | ⟨h, hf⟩
    · rw [i1] at h
      cases h
    · exact ⟨(i3 el).mp h, hf⟩
  · rintro ⟨hel, hf⟩
    exact List.count_eq_one_of_mem hrev ((hr el).mpr (Or.inr ⟨(i3 el).mpr hel, hf⟩))

/-! ## Properties: timers -/

theorem Loop.advanceTo_nil {κ σ : Type} (run : κ → Loop κ σ → Loop κ σ) (t : Nat)
    (l : Loop κ σ) (h : l.timers = []) :
    Loop.advanceTo run t l = { l with now := max l.now t } := by
  simp [Loop.advanceTo, Loop.advance, h, nextDue, earliest, Option.filter]

theorem Loop.advanceTo_early {κ σ : Type} (run : κ → Loop κ σ → Loop κ σ) (t : Nat)
    (l : Loop κ σ) (tm : Timer κ) (h : l.timers = [tm]) (ht : t < tm.due) :
    Loop.advanceTo run t l = { l with now := max l.now t } := by
  have : ¬ tm.due ≤ t := by omega
  simp [Loop.advanceTo, Loop.advance, h, nextDue, earliest, Option.filter, this]

theorem Loop.advanceTo_fire {κ σ : Type} (run : κ → Loop κ σ → Loop κ σ) (t : Nat)
    (l : Loop κ σ) (tm : Timer κ) (h : l.timers = [tm]) (ht : tm.due ≤ t)
    (hrun : (run tm.cb { l with now := max l.now tm.due, timers := [] }).timers = []) :
    Loop.advanceTo run t l =
      { run tm.cb { l with now := max l.now tm.due, timers := [] } with
        now := max (run tm.cb { l with now := max l.now tm.due, timers := [] }).now t } := by
  simp [Loop.advanceTo, Loop.advance, h, nextDue, earliest, Option.filter, ht, hrun]

/-! ## Properties: debouncer -/

theorem invokeAt_first {α : Type} (wait : Nat) (l : Loop α (Debounced α)) (t : Nat) (a : α)
    (htim : l.timers = []) (hcalls : l.st.calls = []) (hnow : l.now ≤ t) :
    Debouncing wait (invokeAt wait l (t, a)) t a := by
  unfold invokeAt
  rw [Loop.advanceTo_nil later t l htim]
  refine ⟨?_, ?_, l.nextId, ?_, ?_⟩
  · cases h : l.st.timeout <;>
      simp [executedFunction, Loop.clearTimeout, Loop.setTimeout, h, hnow]
  · cases h : l.st.timeout <;>
      simp [executedFunction, Loop.clearTimeout, Loop.setTimeout, h, hcalls]
  · cases h : l.st.timeout <;>
      simp [executedFunction, Loop.clearTimeout, Loop.setTimeout, h, htim, hnow]
  · cases h : l.st.timeout <;>
      simp [executedFunction, Loop.clearTimeout, Loop.setTimeout, h]

theorem invokeAt_again {α : Type} (wait : Nat) (l : Loop α (Debounced α)) (t u : Nat) (a b : α)
    (h : Debouncing wait l t a) (htu : t ≤ u) (hu : u < t + wait) :
    Debouncing wait (invokeAt wait l (u, b)) u b := by
  obtain ⟨hnow, hcalls, id, htim, hto⟩ := h
  unfold invokeAt
  rw [Loop.advanceTo_early later u l _ htim hu]
  refine ⟨?_, ?_, l.nextId, ?_, ?_⟩
  · simp [executedFunction, Loop.clearTimeout, Loop.setTimeout, hto, hnow, htu]
  · simp [executedFunction, Loop.clearTimeout, Loop.setTimeout, hto, hcalls]
  · simp [executedFunction, Loop.clearTimeout, Loop.setTimeout, hto, htim, hnow, htu]
  · simp [executedFunction, Loop.clearTimeout, Loop.setTimeout, hto]

theorem debouncing_settles {α : Type} (wait : Nat) (l : Loop α (Debounced α)) (t T : Nat) (a : α)
    (h : Debouncing wait l t a) (hT : t + wait ≤ T) :
    (Loop.advanceTo later T l).st.calls = [(t + wait, a)] ∧
    (Loop.advanceTo later T l).timers = [] ∧
    (Loop.advanceTo later T l).now = T := by
  obtain ⟨hnow, hcalls, id, htim, hto⟩ := h
  have hrun : (later a { l with now := max l.now (t + wait), timers := [] }).timers = [] := by
    simp [later, Loop.clearTimeout, hto]
  rw [Loop.advanceTo_fire later T l _ htim hT hrun]
  refine ⟨?_, ?_, ?_⟩
  · simp [later, Loop.clearTimeout, hto, hcalls, hnow]
  · simp [later, Loop.clearTimeout, hto]
  · simp [later, Loop.clearTimeout, hto, hnow]
    omega

theorem invokeAll_burst {α : Type} (wait : Nat) (last : Nat × α) (calls : List (Nat × α))
    (l : Loop α (Debounced α)) (t : Nat) (a : α) (h : Debouncing wait l t a)
    (hb : Burst wait (t :: (calls ++ [last]).map Prod.fst)) :
    Debouncing wait (invokeAll wait l (calls ++ [last])) last.1 last.2 := by
  induction calls generalizing l t a with
  | nil =>
    obtain ⟨h1, h2, _⟩ := hb
    exact invokeAt_again wait l t last.1 a last.2 h h1 h2
  | cons c rest ih =>
    obtain ⟨h1, h2, h3⟩ := hb
    have step : invokeAll wait l (c :: rest ++ [last])
        = invokeAll wait (invokeAt wait l c) (rest ++ [last]) := rfl
    rw [step]
    exact ih (invokeAt wait l c) c.1 c.2 (invokeAt_again wait l t c.1 a c.2 h h1 h2) h3

/-- Claim C5: for every `wait` and every sequence of one or more invocations of
a function returned by `debounce(func, wait)`, each less than `wait` after the
one before, once the clock has moved at least `wait` past the last invocation
`func` has run exactly once, `wait` after the last invocation and with the
arguments of the last invocation, and no timer is left. -/
theorem debounce_coalesces {α : Type} (wait : Nat) (calls : List (Nat × α)) (last : Nat × α)
    (T : Nat) (hb : Burst wait ((calls ++ [last]).map Prod.fst)) (hT : last.1 + wait ≤ T) :
    (Loop.advanceTo later T (invokeAll wait (debounce α) (calls ++ [last]))).st.calls
      = [(last.1 + wait, last.2)] ∧
    (Loop.advanceTo later T (invokeAll wait (debounce α) (calls ++ [last]))).timers = [] ∧
    (Loop.advanceTo later T (invokeAll wait (debounce α) (calls ++ [last]))).now = T := by
  have hpend : Debouncing wait (invokeAll wait (debounce α) (calls ++ [last])) last.1 last.2 := by
    cases calls with
    | nil =>
      exact invokeAt_first wait (debounce α) last.1 last.2 rfl rfl (Nat.zero_le _)
    | cons c rest =>
      have step : invokeAll wait (debounce α) (c :: rest ++ [last])
          = invokeAll wait (invokeAt wait (debounce α) c) (rest ++ [last]) := rfl
      rw [step]
      exact invokeAll_burst wait last rest _ c.1 c.2
        (invokeAt_first wait (debounce α) c.1 c.2 rfl rfl (Nat.zero_le _)) hb
  exact debouncing_settles wait _ last.1 T last.2 hpend hT

/-- Witness of C5: three invocations at times 0, 5 and 9 with `wait = 10` and
arguments 1, 2, 3; at time 30 `func` has run once, at time 19, with argument 3. -/
theorem debounce_coalesces_witness :
    (Loop.advanceTo later 30
      (invokeAll 10 (debounce Nat) ([(0, 1), (5, 2)] ++ [(9, 3)]))).st.calls = [(19, 3)] :=
  (debounce_coalesces 10 [(0, 1), (5, 2)] (9, 3) 30
    ⟨by decide, by decide, by decide, by decide, trivial⟩ (by decide)).1

/-! ## Properties: resize position preserver -/

theorem resizeAt_idle (world : Nat → Env) (l : Loop Unit ResizeState) (t : Nat)
    (h : Idle l) (hnow : l.now ≤ t) :
    Bursting (resizeAt world l t) t (t + 150) (getCurrentSection (world t)) l.st.scrolls := by
  obtain ⟨htim, hcur, hto, hid⟩ := h
  unfold resizeAt
  rw [Loop.advanceTo_nil (settle world) t l htim]
  refine ⟨?_, ?_, ?_, ?_, l.nextId, hid, ?_, ?_⟩
  · simp [handleResize, Loop.clearTimeout, Loop.setTimeout, hto, hnow]
  · simp [handleResize, Loop.clearTimeout, Loop.setTimeout, hto, hnow, noHandle]
  · simp [handleResize, Loop.clearTimeout, Loop.setTimeout, hto]
  · simp [handleResize, Loop.clearTimeout, Loop.setTimeout, hto]
  · simp [handleResize, Loop.clearTimeout, Loop.setTimeout, hto, htim, hnow]
  · simp [handleResize, Loop.clearTimeout, Loop.setTimeout, hto]

theorem noHandle_pos (id : Nat) (h : 0 < id) : noHandle (some id) = false := by
  simp [noHandle]
  omega

theorem handleResize_bursting (world : Nat → Env) (l : Loop Unit ResizeState) (t due : Nat)
    (cur : Option Elem) (log : List (Nat × Int)) (h : Bursting l t due cur log) :
    Bursting (handleResize world l) t (t + 150) cur log := by
  obtain ⟨hnow, hcur, hlog, hid, id, hpos, htim, hto⟩ := h
  have hno := noHandle_pos id hpos
  refine ⟨?_, ?_, ?_, ?_, l.nextId, hid, ?_, ?_⟩
  · simp [handleResize, Loop.clearTimeout, Loop.setTimeout, hto, hnow]
  · simp [handleResize, Loop.clearTimeout, Loop.setTimeout, hto, hno, hcur]
  · simp [handleResize, Loop.clearTimeout, Loop.setTimeout, hto, hlog]
  · simp [handleResize, Loop.clearTimeout, Loop.setTimeout, hto]
  · simp [handleResize, Loop.clearTimeout, Loop.setTimeout, hto, htim, hnow]
  · simp [handleResize, Loop.clearTimeout, Loop.setTimeout, hto]

theorem resizeAt_bursting (world : Nat → Env) (l : Loop Unit ResizeState) (t u : Nat)
    (cur : Option Elem) (log : List (Nat × Int)) (h : Bursting l t (t + 150) cur log)
    (htu : t ≤ u) (hu : u < t + 150) :
    Bursting (resizeAt world l u) u (u + 150) cur log := by
  have h' : Bursting (Loop.advanceTo (settle world) u l) u (t + 150) cur log := by
    obtain ⟨hnow, hcur, hlog, hid, id, hpos, htim, hto⟩ := h
    rw [Loop.advanceTo_early (settle world) u l _ htim hu]
    exact ⟨by simp [hnow, htu], hcur, hlog, hid, id, hpos, htim, hto⟩
  exact handleResize_bursting world _ u (t + 150) cur log h'

theorem bursting_settles (world : Nat → Env) (l : Loop Unit ResizeState) (t due T : Nat)
    (cur : Option Elem) (log : List (Nat × Int)) (h : Bursting l t due cur log)
    (htd : t ≤ due) (hT : due ≤ T) :
    (Loop.advanceTo (settle world) T l).st.scrolls =
      (match cur with
       | some s => log ++ [(due, (world due).offsetTop s - (world due).navHeight)]
       | none => log) ∧
    Idle (Loop.advanceTo (settle world) T l) ∧
    (Loop.advanceTo (settle world) T l).now = T := by
  obtain ⟨hnow, hcur, hlog, hid, id, hpos, htim, hto⟩ := h
  have hrun : (settle world () { l with now := max l.now due, timers := [] }).timers = [] := rfl
  rw [Loop.advanceTo_fire (settle world) T l _ htim hT hrun]
  have hmax : max t due = due := by omega
  refine ⟨?_, ⟨rfl, rfl, rfl, hid⟩, ?_⟩
  · cases cur with
    | none => simp [settle, hcur, hlog]
    | some s => simp [settle, hcur, hlog, hnow, hmax]
  · simp [settle, hnow, hmax, hT]

theorem resizeAll_burst (world : Nat → Env) (more : List Nat) (l : Loop Unit ResizeState)
    (t : Nat) (cur : Option Elem) (log : List (Nat × Int))
    (h : Bursting l t (t + 150) cur log) (hb : Burst 150 (t :: more)) :
    Bursting (resizeAll world l more) (more.getLastD t) (more.getLastD t + 150) cur log := by
  induction more generalizing l t with
  | nil => exact h
  | cons u rest ih =>
    obtain ⟨h1, h2, h3⟩ := hb
    have step : resizeAll world l (u :: rest) = resizeAll world (resizeAt world l u) rest := rfl
    rw [step, List.getLastD_cons]
    exact ih (resizeAt world l u) u (resizeAt_bursting world l t u cur log h h1 h2) h3

theorem Burst.take (wait : Nat) (t : Nat) (more : List Nat) (k : Nat)
    (hb : Burst wait (t :: more)) : Burst wait (t :: more.take k) := by
  induction more generalizing t k with
  | nil => simpa using hb
  | cons u rest ih =>
    cases k with
    | zero => trivial
    | succ k =>
      obtain ⟨h1, h2, h3⟩ := hb
      exact ⟨h1, h2, ih u k h3⟩

/-- Claim C2: for a resize burst that starts from Idle at time `t0`, where the
locator captures section `S`, followed by any number of further resize signals,
each before the 150-unit settlement timer of the one before fires: `S` stays the
captured section after every signal of the burst, and the settlement, 150 units
after the last signal, makes exactly one `scrollTo`, to the `offsetTop` of `S`
in the layout of that moment minus the navbar height of that moment, and leaves
the machine Idle. -/
theorem resize_burst_settles (world : Nat → Env) (l0 : Loop Unit ResizeState) (t0 : Nat)
    (more : List Nat) (S : Elem) (T : Nat)
    (hidle : Idle l0) (hnow : l0.now ≤ t0)
    (hcap : getCurrentSection (world t0) = some S)
    (hb : Burst 150 (t0 :: more))
    (hT : more.getLastD t0 + 150 ≤ T) :
    (∀ k, (resizeAll world l0 (t0 :: more.take k)).st.currentSection = some S) ∧
    (Loop.advanceTo (settle world) T (resizeAll world l0 (t0 :: more))).st.scrolls =
      l0.st.scrolls ++
        [(more.getLastD t0 + 150,
          (world (more.getLastD t0 + 150)).offsetTop S
            - (world (more.getLastD t0 + 150)).navHeight)] ∧
    Idle (Loop.advanceTo (settle world) T (resizeAll world l0 (t0 :: more))) := by
  have hfirst := resizeAt_idle world l0 t0 hidle hnow
  rw [hcap] at hfirst
  have hall : ∀ ms : List Nat, Burst 150 (t0 :: ms) →
      Bursting (resizeAll world l0 (t0 :: ms)) (ms.getLastD t0) (ms.getLastD t0 + 150)
        (some S) l0.st.scrolls := by
    intro ms hms
    exact resizeAll_burst world ms (resizeAt world l0 t0) t0 (some S) l0.st.scrolls hfirst hms
  refine ⟨fun k => (hall (more.take k) (Burst.take 150 t0 more k hb)).2.1, ?_, ?_⟩
  · exact (bursting_settles world _ _ _ T (some S) l0.st.scrolls (hall more hb)
      (Nat.le_add_right _ _) hT).1
  · exact (bursting_settles world _ _ _ T (some S) l0.st.scrolls (hall more hb)
      (Nat.le_add_right _ _) hT).2.1

/-- Witness of C2: `about` (element 1) is captured at offset 400 at time 0;
resize signals follow at times 60 and 120; the reflow at time 100 moves `about`
to offset 520 and the navbar stays 80 high; the settlement at time 270 scrolls
to 440. -/
theorem resize_burst_settles_witness :
    getCurrentSection (reflowWorld 0) = some 1 ∧
    (reflowWorld 0).offsetTop 1 = 400 ∧
    (reflowWorld 270).offsetTop 1 = 520 ∧
    (Loop.advanceTo (settle reflowWorld) 300
      (resizeAll reflowWorld resizeIdle (0 :: [60, 120]))).st.scrolls = [(270, 440)] :=
  ⟨by decide, by decide, by decide,
   (resize_burst_settles reflowWorld resizeIdle 0 [60, 120] 1 300
      ⟨rfl, rfl, rfl, by decide⟩ (by decide) (by decide)
      ⟨by decide, by decide, by decide, by decide, trivial⟩ (by decide)).2.1⟩

theorem resize_inv_advance (world : Nat → Env) (l : Loop Unit ResizeState) (t : Nat)
    (h : Idle l ∨ ∃ now due cur log, Bursting l now due cur log) :
    Idle (Loop.advanceTo (settle world) t l) ∨
      ∃ now due cur log, Bursting (Loop.advanceTo (settle world) t l) now due cur log := by
  rcases h with h | ⟨now, due, cur, log, h⟩
  · left
    rw [Loop.advanceTo_nil (settle world) t l h.1]
    exact h
  · obtain ⟨hnow, hcur, hlog, hid, id, hpos, htim, hto⟩ := h
    by_cases hd : due ≤ t
    · left
      have hrun : (settle world () { l with now := max l.now due, timers := [] }).timers = [] :=
        rfl
      rw [Loop.advanceTo_fire (settle world) t l _ htim hd hrun]
      exact ⟨rfl, rfl, rfl, hid⟩
    · right
      rw [Loop.advanceTo_early (settle world) t l _ htim (by simpa using hd)]
      exact ⟨max l.now t, due, cur, log, rfl, hcur, hlog, hid, id, hpos, htim, hto⟩

theorem resize_inv_handle (world : Nat → Env) (l : Loop Unit ResizeState)
    (h : Idle l ∨ ∃ now due cur log, Bursting l now due cur log) :
    ∃ now due cur log, Bursting (handleResize world l) now due cur log := by
  rcases h with h | ⟨now, due, cur, log, h⟩
  · have := resizeAt_idle world l l.now h (Nat.le_refl _)
    unfold resizeAt at this
    rw [Loop.advanceTo_nil (settle world) l.now l h.1] at this
    simp only [Nat.max_self] at this
    exact ⟨_, _, _, _, this⟩
  · exact ⟨_, _, _, _, handleResize_bursting world l now due cur log h⟩

theorem reachable_inv (world : Nat → Env) (l : Loop Unit ResizeState)
    (h : Reachable world l) :
    Idle l ∨ ∃ now due cur log, Bursting l now due cur log := by
  induction h with
  | idle => exact Or.inl ⟨rfl, rfl, rfl, by decide⟩
  | resize t _ ih => exact Or.inr (resize_inv_handle world _ (resize_inv_advance world _ t ih))
  | tick t _ ih => exact resize_inv_advance world _ t ih

/-- Claim C6: in every state reachable from the initial state by resize signals
and by the clock moving on, a captured section implies a settlement timer:
`currentSection` non-null implies `resizeTimeout` non-null, and the handle in
`resizeTimeout` is that of the one pending timer; and when the clock reaches a
pending timer's due time the settlement leaves `currentSection` and
`resizeTimeout` null and no timer pending. -/
theorem resize_invariant (world : Nat → Env) (l : Loop Unit ResizeState)
    (h : Reachable world l) :
    (l.st.currentSection ≠ none → l.st.resizeTimeout ≠ none) ∧
    (∀ id, l.st.resizeTimeout = some id → ∃ due, l.timers = [{ id := id, due := due, cb := () }]) ∧
    (l.st.resizeTimeout = none → l.timers = []) ∧
    (∀ tm ∈ l.timers, ∀ T, tm.due ≤ T →
      (Loop.advanceTo (settle world) T l).st.currentSection = none ∧
      (Loop.advanceTo (settle world) T l).st.resizeTimeout = none ∧
      (Loop.advanceTo (settle world) T l).timers = []) ∧
    (∀ u l', (settle world u l').st.currentSection = none ∧
      (settle world u l').st.resizeTimeout = none) := by
  have hinv := reachable_inv world l h
  refine ⟨?_, ?_, ?_, ?_, fun _ _ => ⟨rfl, rfl⟩⟩
  · rcases hinv with hi | ⟨now, due, cur, log, _, _, _, _, id, _, _, hto⟩
    · intro hc
      exact absurd hi.2.1 hc
    · intro _
      rw [hto]
      exact Option.some_ne_none id
  · intro id hid
    rcases hinv with hi | ⟨now, due, cur, log, _, _, _, _, id', _, htim, hto⟩
    · rw [hi.2.2.1] at hid
      cases hid
    · rw [hto] at hid
      cases hid
      exact ⟨due, htim⟩
  · intro hnone
    rcases hinv with hi | ⟨now, due, cur, log, _, _, _, _, id', _, htim, hto⟩
    · exact hi.1
    · rw [hto] at hnone
      cases hnone
  · intro tm htm T hT
    rcases hinv with hi | ⟨now, due, cur, log, hnow, hcur, hlog, hid, id', hpos, htim, hto⟩
    · rw [hi.1] at htm
      cases htm
    · rw [htim, List.mem_singleton] at htm
      subst htm
      have hrun : (settle world () { l with now := max l.now due, timers := [] }).timers = [] :=
        rfl
      rw [Loop.advanceTo_fire (settle world) T l _ htim hT hrun]
      exact ⟨rfl, rfl, rfl⟩

/-- Witness of C6: after one resize signal at time 0 in the reflow scenario the
state is reachable, `about` is captured and the settlement timer is pending. -/
theorem resize_invariant_witness :
    (resizeAt reflowWorld resizeIdle 0).st.currentSection = some 1 ∧
    (resizeAt reflowWorld resizeIdle 0).st.resizeTimeout ≠ none :=
  ⟨by decide,
   (resize_invariant reflowWorld (resizeAt reflowWorld resizeIdle 0)
      (Reachable.resize 0 Reachable.idle)).1 (by decide)⟩

end ChipIQ
